import Mathlib

/-!
# Verification of the Tritium CAN-Ethernet bridge protocol code

Shallow embedding of the tritiumcan / tritiumcan-smoltcp crates:
the MSB0 bit-packed wire formats (Header, Frame, Packet), the CAN-frame
translation, the heartbeat builder, and the UDP/TCP transport state machines.

A bit-packed buffer (the bitfield crate's MSB0 byte arrays) is modelled as a
List Bool in MSB0 order: list index 0 is the most significant bit of byte 0,
so the byte at index j occupies list indices 8*j .. 8*j+7 with its most
significant bit first.  A field declared at bit positions (msb, lsb) in the
source occupies list indices lsb .. msb, with the VALUE's most significant
bit at index lsb (the bitfield crate maps value bit 0 to the high position).
-/

set_option autoImplicit false

namespace Tritium

/-! ## Bit-buffer primitives -/

/-- Write the low w bits of v into the buffer at positions lo .. lo+w-1,
most significant bit first (MSB0 field write of the bitfield crate). -/
def writeBits : List Bool → Nat → Nat → Nat → List Bool
  | buf, _, 0, _ => buf
  | buf, lo, w + 1, v => writeBits (buf.set lo (v.testBit w)) (lo + 1) w v

/-- Read w bits from the buffer at positions lo .. lo+w-1, most significant
bit first (MSB0 field read of the bitfield crate). -/
def readBits : List Bool → Nat → Nat → Nat
  | _, _, 0 => 0
  | buf, lo, w + 1 => (if buf.getD lo false then 2 ^ w else 0) + readBits buf (lo + 1) w

theorem writeBits_zero (buf : List Bool) (lo v : Nat) : writeBits buf lo 0 v = buf := rfl

theorem writeBits_succ (buf : List Bool) (lo w v : Nat) :
    writeBits buf lo (w + 1) v = writeBits (buf.set lo (v.testBit w)) (lo + 1) w v := rfl

theorem readBits_zero (buf : List Bool) (lo : Nat) : readBits buf lo 0 = 0 := rfl

theorem readBits_succ (buf : List Bool) (lo w : Nat) :
    readBits buf lo (w + 1) =
      (if buf.getD lo false then 2 ^ w else 0) + readBits buf (lo + 1) w := rfl

theorem length_writeBits (w : Nat) : ∀ (buf : List Bool) (lo v : Nat),
    (writeBits buf lo w v).length = buf.length := by
  induction w with
  | zero => intro buf lo v; rfl
  | succ w ih =>
      intro buf lo v
      rw [writeBits_succ, ih, List.length_set]

theorem getD_set_self (l : List Bool) (i : Nat) (a : Bool) (h : i < l.length) :
    (l.set i a).getD i false = a := by
  simp [List.getD, List.getElem?_set_self', List.getElem?_eq_getElem h]

theorem getD_set_ne (l : List Bool) (i j : Nat) (a : Bool) (h : i ≠ j) :
    (l.set i a).getD j false = l.getD j false := by
  simp [List.getD, List.getElem?_set_ne h]

/-- Writing bits lo .. lo+w-1 leaves every position outside that range alone. -/
theorem getD_writeBits_outside (w : Nat) : ∀ (buf : List Bool) (lo v i : Nat),
    (i < lo ∨ lo + w ≤ i) → (writeBits buf lo w v).getD i false = buf.getD i false := by
  induction w with
  | zero => intro buf lo v i _; rfl
  | succ w ih =>
      intro buf lo v i hi
      rw [writeBits_succ, ih _ _ _ _ (by omega), getD_set_ne _ _ _ _ (by omega)]

/-- readBits only looks at positions lo .. lo+w-1. -/
theorem readBits_congr (w : Nat) : ∀ (b1 b2 : List Bool) (lo : Nat),
    (∀ k, k < w → b1.getD (lo + k) false = b2.getD (lo + k) false) →
    readBits b1 lo w = readBits b2 lo w := by
  induction w with
  | zero => intro b1 b2 lo _; rfl
  | succ w ih =>
      intro b1 b2 lo h
      rw [readBits_succ, readBits_succ]
      have h0 : b1.getD lo false = b2.getD lo false := by simpa using h 0 (by omega)
      have hrec : readBits b1 (lo + 1) w = readBits b2 (lo + 1) w := by
        apply ih
        intro k hk
        have hx := h (k + 1) (by omega)
        have e : lo + (k + 1) = lo + 1 + k := by omega
        rwa [e] at hx
      rw [h0, hrec]

/-- Reading a range disjoint from the written range sees the old buffer. -/
theorem readBits_writeBits_disjoint (buf : List Bool) (lo w v lo2 w2 : Nat)
    (h : lo2 + w2 ≤ lo ∨ lo + w ≤ lo2) :
    readBits (writeBits buf lo w v) lo2 w2 = readBits buf lo2 w2 := by
  apply readBits_congr
  intro k hk
  exact getD_writeBits_outside w buf lo v (lo2 + k) (by omega)

theorem two_pow_split (u w : Nat) :
    (if u.testBit w then 2 ^ w else 0) + u % 2 ^ w = u % 2 ^ (w + 1) := by
  have h1 : u % 2 ^ (w + 1) = u % (2 ^ w * 2) := by rw [pow_succ]
  rw [h1, Nat.mod_mul, Nat.testBit_to_div_mod]
  rcases Nat.mod_two_eq_zero_or_one (u / 2 ^ w) with h | h
  · simp [h]
  · simp [h]
    omega

theorem testBit_div_pow (n i j : Nat) : (n / 2 ^ i).testBit j = n.testBit (i + j) := by
  rw [Nat.testBit_to_div_mod, Nat.testBit_to_div_mod, Nat.div_div_eq_div_mul, ← pow_add]

/-- Master lemma: reading a sub-range of freshly written bits recovers the
corresponding slice of the written value. -/
theorem readBits_writeBits_sub (w : Nat) : ∀ (buf : List Bool) (lo v a w2 : Nat),
    a + w2 ≤ w → lo + w ≤ buf.length →
    readBits (writeBits buf lo w v) (lo + a) w2 = v / 2 ^ (w - a - w2) % 2 ^ w2 := by
  induction w with
  | zero =>
      intro buf lo v a w2 hw _
      have h2 : w2 = 0 := by omega
      subst h2
      simp [readBits_zero, Nat.mod_one]
  | succ w ih =>
      intro buf lo v a w2 hw hlen
      rw [writeBits_succ]
      rcases Nat.eq_zero_or_pos a with ha | ha
      · subst ha
        rcases Nat.eq_zero_or_pos w2 with h2 | h2
        · subst h2
          simp [readBits_zero, Nat.mod_one]
        · obtain ⟨w2', rfl⟩ : ∃ w2', w2 = w2' + 1 := ⟨w2 - 1, by omega⟩
          simp only [Nat.add_zero]
          rw [readBits_succ]
          have hbit : (writeBits (buf.set lo (v.testBit w)) (lo + 1) w v).getD lo false
              = v.testBit w := by
            rw [getD_writeBits_outside w _ (lo + 1) v lo (by omega)]
            exact getD_set_self buf lo _ (by omega)
          have hrest := ih (buf.set lo (v.testBit w)) (lo + 1) v 0 w2'
            (by omega) (by rw [List.length_set]; omega)
          rw [Nat.add_zero] at hrest
          rw [hbit, hrest]
          have hsub1 : w - 0 - w2' = w - w2' := by omega
          have hsub2 : w + 1 - 0 - (w2' + 1) = w - w2' := by omega
          rw [hsub1, hsub2]
          have hbig : v.testBit w = (v / 2 ^ (w - w2')).testBit w2' := by
            rw [testBit_div_pow]
            congr 1
            omega
          rw [hbig]
          exact two_pow_split (v / 2 ^ (w - w2')) w2'
      · obtain ⟨a', rfl⟩ : ∃ a', a = a' + 1 := ⟨a - 1, by omega⟩
        have hstep := ih (buf.set lo (v.testBit w)) (lo + 1) v a' w2 (by omega)
          (by rw [List.length_set]; omega)
        have harr : lo + 1 + a' = lo + (a' + 1) := by omega
        rw [harr] at hstep
        rw [hstep]
        have hexp : w - a' - w2 = w + 1 - (a' + 1) - w2 := by omega
        rw [hexp]

/-- Round-trip: reading back exactly the written range recovers the value
reduced modulo the field width. -/
theorem readBits_writeBits (buf : List Bool) (lo w v : Nat) (hlen : lo + w ≤ buf.length) :
    readBits (writeBits buf lo w v) lo w = v % 2 ^ w := by
  have := readBits_writeBits_sub w buf lo v 0 w (by omega) hlen
  simpa using this

/-! ## Bytes of a bit buffer -/

/-- The byte at index j of the buffer (MSB0: bits 8j .. 8j+7, msb first). -/
def byteAt (buf : List Bool) (j : Nat) : Nat := readBits buf (8 * j) 8

/-- The byte array underlying a bit buffer. -/
def toBytes (buf : List Bool) : List Nat := (List.range (buf.length / 8)).map (byteAt buf)

/-- A byte list as an MSB0 bit buffer. -/
def bytesToBits (l : List Nat) : List Bool :=
  l.flatMap (fun b => (List.range 8).map (fun k => b.testBit (7 - k)))

theorem length_toBytes (buf : List Bool) : (toBytes buf).length = buf.length / 8 := by
  simp [toBytes]

instance exceptDecEq {ε α : Type} [DecidableEq ε] [DecidableEq α] :
    DecidableEq (Except ε α) := fun x y =>
  match x, y with
  | .ok a, .ok b => decidable_of_iff (a = b) (by simp)
  | .error a, .error b => decidable_of_iff (a = b) (by simp)
  | .ok _, .error _ => isFalse (fun hc => Except.noConfusion hc)
  | .error _, .ok _ => isFalse (fun hc => Except.noConfusion hc)

/-! ## Protocol constants and value types (tritiumcan/src/lib.rs) -/

/-- The fixed protocol version constant. -/
def PROTOCOL_VERSION : Nat := 0x5472697469756

/-- Heartbeat interval, in microseconds of smoltcp Instant time (1 second). -/
def HEARTBEAT_INTERVAL : Nat := 1000000

def Flags.Heartbeat : Nat := 128
def Flags.Settings : Nat := 64
def Flags.Remote : Nat := 2
def Flags.Extended : Nat := 1

/-- BusNumber TryFrom of a u8: error when the input exceeds 0xF. -/
def BusNumber.tryFrom (value : Nat) : Except Unit Nat :=
  if value > 0xF then .error () else .ok value

/-- BusNumber Default. -/
def BusNumber.default : Nat := 13

/-- A CAN identifier as in embedded_can: standard (11-bit) or extended (29-bit). -/
inductive CanId where
  | standard : Nat → CanId
  | extended : Nat → CanId
deriving DecidableEq

/-- The raw identifier value the translation extracts (as_raw casts). -/
def CanId.raw : CanId → Nat
  | .standard n => n
  | .extended n => n

/-- A generic CAN frame at the embedded_can trait boundary: identifier, dlc,
payload bytes as returned by its data() method, and the remote-request flag. -/
structure CanFrame where
  id : CanId
  dlc : Nat
  data : List Nat
  remote : Bool
deriving DecidableEq

def CanFrame.is_extended (f : CanFrame) : Bool :=
  match f.id with
  | .standard _ => false
  | .extended _ => true

/-- Flags::from_frame in tritiumcan/src/lib.rs. -/
def Flags.from_frame (f : CanFrame) : Nat :=
  (if f.is_extended then Flags.Extended else 0) |||
    (if f.remote then Flags.Remote else 0)

/-! ## Wire Frame (FrameBitfield, 14 bytes / 112 bits, datagram.rs) -/

def FRAME_LEN : Nat := 14

def Frame.new : List Bool := List.replicate 112 false

def Frame.set_id (f : List Bool) (v : Nat) : List Bool := writeBits f 0 32 v
def Frame.id (f : List Bool) : Nat := readBits f 0 32
def Frame.set_flags (f : List Bool) (v : Nat) : List Bool := writeBits f 32 8 v
def Frame.flags (f : List Bool) : Nat := readBits f 32 8
def Frame.set_dlc (f : List Bool) (v : Nat) : List Bool := writeBits f 40 8 v
def Frame.dlc (f : List Bool) : Nat := readBits f 40 8
def Frame.set_data (f : List Bool) (v : Nat) : List Bool := writeBits f 48 64 v
def Frame.data (f : List Bool) : Nat := readBits f 48 64

/-- The payload bytes as laid out on the wire: bytes 6 .. 13 of the frame
buffer (the 64-bit data field). -/
def Frame.payloadBytes (f : List Bool) : List Nat :=
  (List.range 8).map (fun k => byteAt f (6 + k))

/-- The payload-packing loop of Frame::from_frame: iterate over the payload
bytes (already reversed by the caller), or-ing element n into bit position
8*n, breaking once n reaches the dlc. -/
def packLoop (dlc : Nat) : List Nat → Nat → Nat → Nat
  | [], _, acc => acc
  | byte :: rest, n, acc =>
    if n < dlc then packLoop dlc rest (n + 1) (acc ||| byte <<< (n * 8))
    else acc

/-- Frame::from_frame (datagram.rs lines 128-154): translate a CAN frame into
the 14-byte wire frame; errors when dlc exceeds 8. -/
def Frame.from_frame (f : CanFrame) : Except Unit (List Bool) :=
  if f.dlc > 8 then .error ()
  else
    let data := packLoop f.dlc f.data.reverse 0 0
    let dg := Frame.set_flags Frame.new (Flags.from_frame f)
    let dg := Frame.set_id dg f.id.raw
    let dg := Frame.set_dlc dg f.dlc
    let dg := Frame.set_data dg data
    .ok dg

/-- Flags::from_bits: none when a bit outside the four defined flags is set. -/
def Flags.from_bits (bits : Nat) : Option Nat :=
  if bits &&& 0x3C = 0 then some bits else none

/-- Trait is_extended on the wire frame; the source unwraps Flags::from_bits,
so an unknown flag bit panics (none). -/
def Frame.is_extended (f : List Bool) : Option Bool :=
  (Flags.from_bits (Frame.flags f)).map (fun b => (b &&& Flags.Extended) != 0)

/-- Trait is_remote_frame on the wire frame. -/
def Frame.is_remote_frame (f : List Bool) : Option Bool :=
  (Flags.from_bits (Frame.flags f)).map (fun b => (b &&& Flags.Remote) != 0)

/-- Trait id() accessor: rebuilds a standard or extended identifier from the
Extended flag; the StandardId/ExtendedId range checks are unwrapped, so an
out-of-range stored identifier panics (none).  The standard branch first
truncates the stored 32-bit identifier to 16 bits (as u16 cast). -/
def Frame.to_id (f : List Bool) : Option CanId :=
  match Frame.is_extended f with
  | none => none
  | some true =>
      if Frame.id f ≤ 0x1FFFFFFF then some (.extended (Frame.id f)) else none
  | some false =>
      if Frame.id f % 65536 ≤ 0x7FF then some (.standard (Frame.id f % 65536)) else none

/-- Trait data() accessor (datagram.rs lines 95-98): slices the underlying
byte buffer from index 22 onward; Rust range slicing panics (none) when the
start index exceeds the buffer length. -/
def Frame.dataAccessor (f : List Bool) : Option (List Nat) :=
  if 22 ≤ (toBytes f).length then some ((toBytes f).drop 22) else none

/-- Reading a wire frame back as a CAN frame through the embedded_can trait
accessors (the from_wire direction); any accessor panic gives none. -/
def Frame.to_can (f : List Bool) : Option CanFrame :=
  match Frame.to_id f, Frame.is_remote_frame f, Frame.dataAccessor f with
  | some i, some r, some d => some ⟨i, Frame.dlc f, d, r⟩
  | _, _, _ => none

/-! ## Header (HeaderBitfield, 16 bytes / 128 bits) -/

def HEADER_LEN : Nat := 16

def Header.new : List Bool := List.replicate 128 false

def Header.set_version (h : List Bool) (v : Nat) : List Bool := writeBits h 8 52 v
def Header.version (h : List Bool) : Nat := readBits h 8 52
def Header.set_bus_number (h : List Bool) (v : Nat) : List Bool := writeBits h 60 4 v
def Header.bus_number (h : List Bool) : Nat := readBits h 60 4
def Header.set_client_identifier (h : List Bool) (v : Nat) : List Bool := writeBits h 72 56 v
def Header.client_identifier (h : List Bool) : Nat := readBits h 72 56

/-! ## Packet (Header ++ Frame, 30 bytes) -/

structure Packet where
  header : List Bool
  frame : List Bool
deriving DecidableEq

/-- Packet::as_bytes: the repr(C) in-memory layout, header bytes then frame
bytes (30 bytes). -/
def Packet.as_bytes (p : Packet) : List Nat := toBytes p.header ++ toBytes p.frame

/-- u16::to_be_bytes. -/
def u16_to_be_bytes (v : Nat) : List Nat := [v / 256 % 256, v % 256]

/-- u64::from_be_bytes over an 8-byte array. -/
def u64_from_be_bytes (l : List Nat) : Nat := l.foldl (fun acc b => acc * 256 + b) 0

/-- Packet::new_heartbeat (datagram.rs lines 168-200); the same construction
as heartbeat::build in src/heartbeat.rs.  The data array is the 2-byte
big-endian data rate followed by the 6 MAC bytes. -/
def Packet.new_heartbeat (mac : List Nat) (bus : Nat) (rate : Nat) : Packet :=
  let flags := Flags.Heartbeat
  let data := u16_to_be_bytes rate ++ mac
  let header := Header.set_client_identifier
    (Header.set_bus_number (Header.set_version Header.new PROTOCOL_VERSION) bus) 0
  let frame := Frame.set_data
    (Frame.set_dlc (Frame.set_id (Frame.set_flags Frame.new flags) 0) data.length)
    (u64_from_be_bytes data)
  ⟨header, frame⟩

/-! ## UDP transport (tritiumcan-smoltcp/src/udp.rs)

The smoltcp socket engine is an external collaborator; it is modelled at its
interface boundary: a UDP socket records whether it is open, whether the
engine accepts the next outgoing datagram (send_slice success), and the list
of datagrams successfully queued.  Instants are Nat microseconds. -/

structure UdpServer where
  mac_addr : List Nat
  bus_number : Nat
  data_rate : Nat
  last_heartbeat : Nat
deriving DecidableEq

structure UdpSocket where
  isOpen : Bool
  sendOk : Bool
  sent : List (List Nat)
deriving DecidableEq

/-- Server::write_heartbeat: build the heartbeat packet from the held
configuration and hand its 30 bytes to send_slice. -/
def UdpServer.write_heartbeat (s : UdpServer) (sock : UdpSocket) : Except Unit UdpSocket :=
  let packet := Packet.new_heartbeat s.mac_addr s.bus_number s.data_rate
  if sock.sendOk then .ok { sock with sent := sock.sent ++ [Packet.as_bytes packet] }
  else .error ()

/-- Server::poll (udp.rs lines 80-102): bind if not open, then send a
heartbeat when more than the interval has elapsed, advancing last_heartbeat
only on send success.  The returned Bool reports a successful heartbeat
send. -/
def UdpServer.poll (s : UdpServer) (sock : UdpSocket) (now : Nat) :
    UdpServer × UdpSocket × Bool :=
  let sock := if ¬ sock.isOpen then { sock with isOpen := true } else sock
  if now - s.last_heartbeat > HEARTBEAT_INTERVAL then
    match s.write_heartbeat sock with
    | .ok sock2 => ({ s with last_heartbeat := now }, sock2, true)
    | .error _ => (s, sock, false)
  else (s, sock, false)

/-- Server::send_heartbeat: broadcast a heartbeat without touching the
heartbeat timer (self is only read). -/
def UdpServer.send_heartbeat (s : UdpServer) (sock : UdpSocket) :
    UdpServer × Except Unit UdpSocket :=
  (s, s.write_heartbeat sock)

/-- The Packet value Server::send_frame builds: a fresh header (version, bus
number, zero client identifier) around the translated frame.  The source
unwraps Frame::from_frame, so an over-length frame panics: none. -/
def udp_send_packet (bus : Nat) (f : CanFrame) : Option Packet :=
  match Frame.from_frame f with
  | .error _ => none
  | .ok w =>
    let header := Header.set_client_identifier
      (Header.set_bus_number (Header.set_version Header.new PROTOCOL_VERSION) bus) 0
    some ⟨header, w⟩

/-- Server::send_frame (udp.rs lines 127-145).  none models the panic of the
unwrap on an over-length frame; otherwise the packet bytes are offered to the
socket. -/
def UdpServer.send_frame (s : UdpServer) (sock : UdpSocket) (f : CanFrame) :
    Option (UdpServer × UdpSocket × Except Unit Unit) :=
  match udp_send_packet s.bus_number f with
  | none => none
  | some p =>
    if sock.sendOk then
      some (s, { sock with sent := sock.sent ++ [Packet.as_bytes p] }, .ok ())
    else some (s, sock, .error ())

/-- Server::recv_frame (udp.rs lines 147-161), applied to the byte count and
content the socket engine delivered for one datagram read: when the count
differs from the 30-byte Packet size the datagram is discarded (none),
otherwise the frame part (bytes 16..30) is returned. -/
def udp_recv_frame (received : List Nat) : Option (List Bool) :=
  if received.length ≠ 30 then none
  else some (bytesToBits (received.drop 16))

/-! ## TCP transport (tritiumcan-smoltcp/src/tcp.rs)

The TCP socket is modelled at the smoltcp interface boundary: a connection
state, the byte stream written so far (txData) and the readable bytes
(rxData).  send_slice succeeds fully whenever the state allows sending. -/

inductive TcpState where
  | closed
  | listening
  | established
  | closeWait
deriving DecidableEq

structure TcpSocket where
  state : TcpState
  txData : List Nat
  rxData : List Nat
deriving DecidableEq

def TcpSocket.is_open (sock : TcpSocket) : Bool := sock.state != .closed

def TcpSocket.is_listening (sock : TcpSocket) : Bool := sock.state == .listening

def TcpSocket.can_send (sock : TcpSocket) : Bool :=
  match sock.state with
  | .established => true
  | .closeWait => true
  | _ => false

def TcpSocket.can_recv (sock : TcpSocket) : Bool :=
  (match sock.state with
   | .established => true
   | .closeWait => true
   | _ => false) && sock.rxData != []

/-- tcp send_slice: enqueue the bytes on the stream when the connection
accepts outbound data, else an InvalidState error. -/
def TcpSocket.send_slice (sock : TcpSocket) (data : List Nat) :
    Except Unit (TcpSocket × Nat) :=
  if sock.can_send then .ok ({ sock with txData := sock.txData ++ data }, data.length)
  else .error ()

/-- tcp recv_slice with a buffer of n bytes: dequeues min n available bytes
and returns how many were copied together with their content. -/
def TcpSocket.recv_slice (sock : TcpSocket) (n : Nat) : TcpSocket × Nat × List Nat :=
  let k := min n sock.rxData.length
  ({ sock with rxData := sock.rxData.drop k }, k, sock.rxData.take k)

structure TcpServer where
  mac_addr : List Nat
  bus_number : Nat
  data_rate : Nat
  last_heartbeat : Nat
  tx_start : Bool
  rx_start : Bool
deriving DecidableEq

/-- Server::write_heartbeat (tcp.rs lines 100-108): build the full heartbeat
Packet but send only its 14 frame bytes on the stream. -/
def TcpServer.write_heartbeat (s : TcpServer) (sock : TcpSocket) : Except Unit TcpSocket :=
  let packet := Packet.new_heartbeat s.mac_addr s.bus_number s.data_rate
  (sock.send_slice (toBytes packet.frame)).map (fun r => r.1)

/-- Server::poll (tcp.rs lines 55-86): listen when closed; on CloseWait close
the local side and reset both alignment flags; otherwise send a heartbeat
when due, advancing the timestamp only on success. -/
def TcpServer.poll (s : TcpServer) (sock : TcpSocket) (now : Nat) : TcpServer × TcpSocket :=
  let sock := if ¬ sock.is_open ∧ ¬ sock.is_listening
    then { sock with state := .listening } else sock
  if sock.state = .closeWait then
    ({ s with tx_start := false, rx_start := false }, { sock with state := .closed })
  else if sock.can_send ∧ now - s.last_heartbeat > HEARTBEAT_INTERVAL then
    match s.write_heartbeat sock with
    | .ok sock2 => ({ s with last_heartbeat := now }, sock2)
    | .error _ => (s, sock)
  else (s, sock)

/-- Server::send_heartbeat (tcp.rs): broadcast without touching the timer. -/
def TcpServer.send_heartbeat (s : TcpServer) (sock : TcpSocket) :
    TcpServer × Except Unit TcpSocket :=
  (s, s.write_heartbeat sock)

/-- Server::send_frame (tcp.rs lines 111-128): on the first send of a
connection write a 30-byte zero block first (propagating a send error), then
translate the frame; a translation failure is swallowed (Ok with nothing
written), otherwise the 14 frame bytes are written. -/
def TcpServer.send_frame (s : TcpServer) (sock : TcpSocket) (f : CanFrame) :
    TcpServer × TcpSocket × Except Unit Unit :=
  match
    (if ¬ s.tx_start then
        match sock.send_slice (List.replicate 30 0) with
        | .error e => .error e
        | .ok (sock1, _) => .ok ({ s with tx_start := true }, sock1)
      else .ok (s, sock) : Except Unit (TcpServer × TcpSocket))
  with
  | .error e => (s, sock, .error e)
  | .ok (s1, sock1) =>
    match Frame.from_frame f with
    | .ok w =>
      match sock1.send_slice (toBytes w) with
      | .ok (sock2, _) => (s1, sock2, .ok ())
      | .error e => (s1, sock1, .error e)
    | .error _ => (s1, sock1, .ok ())

/-- Server::recv_frame (tcp.rs lines 130-153): when readable, first discard
30 stream bytes once per connection, then read up to 14 bytes; any count
other than exactly 14 yields no frame. -/
def TcpServer.recv_frame (s : TcpServer) (sock : TcpSocket) :
    TcpServer × TcpSocket × Option (List Bool) :=
  if sock.can_recv then
    let step :=
      if ¬ s.rx_start then
        ({ s with rx_start := true }, (sock.recv_slice 30).1)
      else (s, sock)
    let s1 := step.1
    let sock1 := step.2
    let r := sock1.recv_slice 14
    if r.2.1 ≠ 14 then (s1, r.1, none)
    else (s1, r.1, some (bytesToBits r.2.2))
  else (s, sock, none)

/-! ## Field-access lemmas -/

theorem length_frame_new : Frame.new.length = 112 := by simp [Frame.new]

theorem length_header_new : Header.new.length = 128 := by simp [Header.new]

theorem length_from_frame {f : CanFrame} {w : List Bool}
    (h : Frame.from_frame f = .ok w) : w.length = 112 := by
  unfold Frame.from_frame at h
  split at h
  · cases h
  · rw [Except.ok.injEq] at h
    subst h
    simp [Frame.set_data, Frame.set_dlc, Frame.set_id, Frame.set_flags,
      length_writeBits, Frame.new]

theorem frame_fields_id (flv idv dlv dav : Nat) :
    Frame.id (Frame.set_data
        (Frame.set_dlc (Frame.set_id (Frame.set_flags Frame.new flv) idv) dlv) dav)
      = idv % 2 ^ 32 := by
  unfold Frame.id Frame.set_data Frame.set_dlc Frame.set_id Frame.set_flags
  rw [readBits_writeBits_disjoint _ 48 64 dav 0 32 (by omega),
    readBits_writeBits_disjoint _ 40 8 dlv 0 32 (by omega),
    readBits_writeBits _ 0 32 idv (by simp [length_writeBits, Frame.new])]

theorem frame_fields_flags (flv idv dlv dav : Nat) :
    Frame.flags (Frame.set_data
        (Frame.set_dlc (Frame.set_id (Frame.set_flags Frame.new flv) idv) dlv) dav)
      = flv % 2 ^ 8 := by
  unfold Frame.flags Frame.set_data Frame.set_dlc Frame.set_id Frame.set_flags
  rw [readBits_writeBits_disjoint _ 48 64 dav 32 8 (by omega),
    readBits_writeBits_disjoint _ 40 8 dlv 32 8 (by omega),
    readBits_writeBits_disjoint _ 0 32 idv 32 8 (by omega),
    readBits_writeBits _ 32 8 flv (by simp [length_frame_new])]

theorem frame_fields_dlc (flv idv dlv dav : Nat) :
    Frame.dlc (Frame.set_data
        (Frame.set_dlc (Frame.set_id (Frame.set_flags Frame.new flv) idv) dlv) dav)
      = dlv % 2 ^ 8 := by
  unfold Frame.dlc Frame.set_data Frame.set_dlc Frame.set_id Frame.set_flags
  rw [readBits_writeBits_disjoint _ 48 64 dav 40 8 (by omega),
    readBits_writeBits _ 40 8 dlv (by simp [length_writeBits, Frame.new])]

theorem frame_fields_payload (flv idv dlv dav k : Nat) (hk : k < 8) :
    byteAt (Frame.set_data
        (Frame.set_dlc (Frame.set_id (Frame.set_flags Frame.new flv) idv) dlv) dav) (6 + k)
      = dav / 2 ^ (8 * (7 - k)) % 256 := by
  unfold byteAt Frame.set_data Frame.set_dlc Frame.set_id Frame.set_flags
  have h8 : 8 * (6 + k) = 48 + 8 * k := by omega
  rw [h8]
  have hm := readBits_writeBits_sub 64
    (writeBits (writeBits (writeBits Frame.new 32 8 flv) 0 32 idv) 40 8 dlv) 48 dav
    (8 * k) 8 (by omega) (by simp [length_writeBits, Frame.new])
  rw [hm]
  have he : 64 - 8 * k - 8 = 8 * (7 - k) := by omega
  rw [he]
  norm_num

theorem header_fields_version (vv bv cv : Nat) :
    Header.version (Header.set_client_identifier
        (Header.set_bus_number (Header.set_version Header.new vv) bv) cv)
      = vv % 2 ^ 52 := by
  unfold Header.version Header.set_client_identifier Header.set_bus_number Header.set_version
  rw [readBits_writeBits_disjoint _ 72 56 cv 8 52 (by omega),
    readBits_writeBits_disjoint _ 60 4 bv 8 52 (by omega),
    readBits_writeBits _ 8 52 vv (by simp [length_header_new])]

theorem payloadBytes_expand (f : List Bool) :
    Frame.payloadBytes f = [byteAt f 6, byteAt f 7, byteAt f 8, byteAt f 9,
      byteAt f 10, byteAt f 11, byteAt f 12, byteAt f 13] := by
  simp [Frame.payloadBytes, List.range_succ]

theorem be_byte_extract (b0 b1 b2 b3 b4 b5 b6 b7 : Nat)
    (h0 : b0 < 256) (h1 : b1 < 256) (h2 : b2 < 256) (h3 : b3 < 256)
    (h4 : b4 < 256) (h5 : b5 < 256) (h6 : b6 < 256) (h7 : b7 < 256) :
    u64_from_be_bytes [b0, b1, b2, b3, b4, b5, b6, b7] / 2 ^ 56 % 256 = b0 ∧
    u64_from_be_bytes [b0, b1, b2, b3, b4, b5, b6, b7] / 2 ^ 48 % 256 = b1 ∧
    u64_from_be_bytes [b0, b1, b2, b3, b4, b5, b6, b7] / 2 ^ 40 % 256 = b2 ∧
    u64_from_be_bytes [b0, b1, b2, b3, b4, b5, b6, b7] / 2 ^ 32 % 256 = b3 ∧
    u64_from_be_bytes [b0, b1, b2, b3, b4, b5, b6, b7] / 2 ^ 24 % 256 = b4 ∧
    u64_from_be_bytes [b0, b1, b2, b3, b4, b5, b6, b7] / 2 ^ 16 % 256 = b5 ∧
    u64_from_be_bytes [b0, b1, b2, b3, b4, b5, b6, b7] / 2 ^ 8 % 256 = b6 ∧
    u64_from_be_bytes [b0, b1, b2, b3, b4, b5, b6, b7] / 2 ^ 0 % 256 = b7 := by
  simp only [u64_from_be_bytes, List.foldl]
  norm_num
  refine ⟨?_, ?_, ?_, ?_, ?_, ?_, ?_, ?_⟩ <;> omega

theorem list_length_six {α : Type} {l : List α} (h : l.length = 6) :
    ∃ a b c d e g, l = [a, b, c, d, e, g] := by
  rcases l with _ | ⟨a, l⟩; · simp at h
  rcases l with _ | ⟨b, l⟩; · simp at h
  rcases l with _ | ⟨c, l⟩; · simp at h
  rcases l with _ | ⟨d, l⟩; · simp at h
  rcases l with _ | ⟨e, l⟩; · simp at h
  rcases l with _ | ⟨g, l⟩; · simp at h
  rcases l with _ | ⟨x, l⟩
  · exact ⟨a, b, c, d, e, g, rfl⟩
  · simp at h

/-! ## Claims -/

/-- C8: BusNumber::try_from(n) succeeds with value n for every n in 0..15,
fails with a range error for every n in 16..255, and the default bus number
is 13. -/
theorem busNumber_try_from (n : Nat) (hn : n ≤ 255) :
    (n ≤ 15 → BusNumber.tryFrom n = .ok n) ∧
    (16 ≤ n → BusNumber.tryFrom n = .error ()) ∧
    BusNumber.default = 13 := by
  refine ⟨fun h => ?_, fun h => ?_, rfl⟩
  · unfold BusNumber.tryFrom
    rw [if_neg (by omega)]
  · unfold BusNumber.tryFrom
    rw [if_pos (by omega)]

theorem busNumber_try_from_witness :
    (7 ≤ 15 → BusNumber.tryFrom 7 = .ok 7) ∧
    (16 ≤ 7 → BusNumber.tryFrom 7 = .error ()) ∧
    BusNumber.default = 13 :=
  busNumber_try_from 7 (by decide)

/-- C10: the public data() accessor of the wire frame slices the underlying
14-byte buffer from index 22, which is past the end of the buffer for every
14-byte frame, so the access is out of bounds for all inputs and never
returns a payload slice; the data field itself occupies bytes 6..14. -/
theorem frame_data_accessor_oob (f : List Bool) (hf : f.length = 112) :
    Frame.dataAccessor f = none ∧ (toBytes f).length = 14 ∧
    (∀ v k, k < 8 → byteAt (Frame.set_data f v) (6 + k) = v / 2 ^ (8 * (7 - k)) % 256) := by
  have hb : (toBytes f).length = 14 := by rw [length_toBytes, hf]
  refine ⟨?_, hb, ?_⟩
  · unfold Frame.dataAccessor
    rw [if_neg (by omega)]
  · intro v k hk
    unfold byteAt Frame.set_data
    have h8 : 8 * (6 + k) = 48 + 8 * k := by omega
    rw [h8]
    have hm := readBits_writeBits_sub 64 f 48 v (8 * k) 8 (by omega) (by omega)
    rw [hm]
    have he : 64 - 8 * k - 8 = 8 * (7 - k) := by omega
    rw [he]
    norm_num

theorem frame_data_accessor_oob_witness :
    Frame.dataAccessor Frame.new = none ∧ (toBytes Frame.new).length = 14 := by
  have h := frame_data_accessor_oob Frame.new (by simp [Frame.new])
  exact ⟨h.1, h.2.1⟩

/-- C5: the heartbeat builder applied to mac=[1,2,3,4,5,6], bus=7, rate=500
produces a frame with identifier 0, dlc 8, the Heartbeat flag, and payload
bytes 01 F4 01 02 03 04 05 06; in general, for every 6-byte MAC, valid bus
number and 16-bit data rate, the heartbeat frame has identifier 0, dlc 8,
the Heartbeat flag, and payload equal to the big-endian data rate followed
by the MAC bytes. -/
theorem heartbeat_content :
    (Frame.id (Packet.new_heartbeat [1, 2, 3, 4, 5, 6] 7 500).frame = 0 ∧
     Frame.dlc (Packet.new_heartbeat [1, 2, 3, 4, 5, 6] 7 500).frame = 8 ∧
     Frame.flags (Packet.new_heartbeat [1, 2, 3, 4, 5, 6] 7 500).frame = Flags.Heartbeat ∧
     Frame.payloadBytes (Packet.new_heartbeat [1, 2, 3, 4, 5, 6] 7 500).frame
       = [0x01, 0xF4, 0x01, 0x02, 0x03, 0x04, 0x05, 0x06]) ∧
    (∀ (mac : List Nat) (bus rate : Nat), mac.length = 6 → (∀ b ∈ mac, b < 256) →
      bus < 16 → rate < 65536 →
      Frame.id (Packet.new_heartbeat mac bus rate).frame = 0 ∧
      Frame.dlc (Packet.new_heartbeat mac bus rate).frame = 8 ∧
      Frame.flags (Packet.new_heartbeat mac bus rate).frame = Flags.Heartbeat ∧
      Frame.payloadBytes (Packet.new_heartbeat mac bus rate).frame
        = [rate / 256, rate % 256] ++ mac) := by
  constructor
  · decide
  · intro mac bus rate hlen hmem hbus hrate
    obtain ⟨m0, m1, m2, m3, m4, m5, rfl⟩ := list_length_six hlen
    have hb0 : m0 < 256 := hmem m0 (by simp)
    have hb1 : m1 < 256 := hmem m1 (by simp)
    have hb2 : m2 < 256 := hmem m2 (by simp)
    have hb3 : m3 < 256 := hmem m3 (by simp)
    have hb4 : m4 < 256 := hmem m4 (by simp)
    have hb5 : m5 < 256 := hmem m5 (by simp)
    have hframe : (Packet.new_heartbeat [m0, m1, m2, m3, m4, m5] bus rate).frame
        = Frame.set_data (Frame.set_dlc (Frame.set_id
            (Frame.set_flags Frame.new Flags.Heartbeat) 0) 8)
          (u64_from_be_bytes
            [rate / 256 % 256, rate % 256, m0, m1, m2, m3, m4, m5]) := by
      simp [Packet.new_heartbeat, u16_to_be_bytes]
    rw [hframe]
    obtain ⟨e0, e1, e2, e3, e4, e5, e6, e7⟩ :=
      be_byte_extract (rate / 256 % 256) (rate % 256) m0 m1 m2 m3 m4 m5
        (by omega) (by omega) hb0 hb1 hb2 hb3 hb4 hb5
    refine ⟨?_, ?_, ?_, ?_⟩
    · simp [frame_fields_id]
    · simp [frame_fields_dlc]
    · simp [frame_fields_flags, Flags.Heartbeat]
    · have p0 := frame_fields_payload Flags.Heartbeat 0 8
        (u64_from_be_bytes [rate / 256 % 256, rate % 256, m0, m1, m2, m3, m4, m5]) 0
        (by norm_num)
      have p1 := frame_fields_payload Flags.Heartbeat 0 8
        (u64_from_be_bytes [rate / 256 % 256, rate % 256, m0, m1, m2, m3, m4, m5]) 1
        (by norm_num)
      have p2 := frame_fields_payload Flags.Heartbeat 0 8
        (u64_from_be_bytes [rate / 256 % 256, rate % 256, m0, m1, m2, m3, m4, m5]) 2
        (by norm_num)
      have p3 := frame_fields_payload Flags.Heartbeat 0 8
        (u64_from_be_bytes [rate / 256 % 256, rate % 256, m0, m1, m2, m3, m4, m5]) 3
        (by norm_num)
      have p4 := frame_fields_payload Flags.Heartbeat 0 8
        (u64_from_be_bytes [rate / 256 % 256, rate % 256, m0, m1, m2, m3, m4, m5]) 4
        (by norm_num)
      have p5 := frame_fields_payload Flags.Heartbeat 0 8
        (u64_from_be_bytes [rate / 256 % 256, rate % 256, m0, m1, m2, m3, m4, m5]) 5
        (by norm_num)
      have p6 := frame_fields_payload Flags.Heartbeat 0 8
        (u64_from_be_bytes [rate / 256 % 256, rate % 256, m0, m1, m2, m3, m4, m5]) 6
        (by norm_num)
      have p7 := frame_fields_payload Flags.Heartbeat 0 8
        (u64_from_be_bytes [rate / 256 % 256, rate % 256, m0, m1, m2, m3, m4, m5]) 7
        (by norm_num)
      norm_num at p0 p1 p2 p3 p4 p5 p6 p7 e0 e1 e2 e3 e4 e5 e6 e7
      rw [payloadBytes_expand, p0, p1, p2, p3, p4, p5, p6, p7,
        e0, e1, e2, e3, e4, e5, e6, e7]
      have hr : rate / 256 % 256 = rate / 256 := Nat.mod_eq_of_lt (by omega)
      rw [hr]
      simp

theorem heartbeat_content_witness :
    Frame.id (Packet.new_heartbeat [2, 4, 6, 8, 10, 12] 3 1000).frame = 0 ∧
    Frame.dlc (Packet.new_heartbeat [2, 4, 6, 8, 10, 12] 3 1000).frame = 8 ∧
    Frame.flags (Packet.new_heartbeat [2, 4, 6, 8, 10, 12] 3 1000).frame = Flags.Heartbeat ∧
    Frame.payloadBytes (Packet.new_heartbeat [2, 4, 6, 8, 10, 12] 3 1000).frame
      = [1000 / 256, 1000 % 256] ++ [2, 4, 6, 8, 10, 12] :=
  heartbeat_content.2 [2, 4, 6, 8, 10, 12] 3 1000 (by decide) (by decide)
    (by decide) (by decide)

/-- The failing input for the round-trip claim: a CAN frame with standard
identifier 1, dlc 1 and payload [0xAB]. -/
def rtFrame : CanFrame := ⟨.standard 1, 1, [0xAB], false⟩

/-- The wire frame Frame::from_frame produces for rtFrame. -/
def rtWire : List Bool := (Frame.from_frame rtFrame).toOption.getD []

/-- C1 (fails on the code): translating rtFrame succeeds, but the payload
byte 0xAB lands in the least significant byte of the 64-bit data field
(wire byte 13) instead of the most significant position (wire byte 6), and
the data() accessor used by the wire-to-CAN direction is out of bounds for
every 14-byte frame, so from_wire(to_wire(f)) cannot return the payload at
all.  Identifier, flags and dlc on their own are preserved. -/
theorem roundtrip_payload_divergence :
    Frame.from_frame rtFrame = .ok rtWire ∧
    byteAt rtWire 6 = 0 ∧
    byteAt rtWire 13 = 0xAB ∧
    Frame.dataAccessor rtWire = none ∧
    Frame.to_can rtWire = none ∧
    Frame.to_id rtWire = some (.standard 1) ∧
    Frame.dlc rtWire = 1 := by decide

/-- An over-length CAN frame: dlc 9 with a 9-byte payload. -/
def overFrame : CanFrame := ⟨.standard 1, 9, List.replicate 9 0xAB, false⟩

def udpServer0 : UdpServer := ⟨[1, 2, 3, 4, 5, 6], 13, 500, 0⟩

def udpSocket0 : UdpSocket := ⟨true, true, []⟩

def tcpServer0 : TcpServer := ⟨[1, 2, 3, 4, 5, 6], 13, 500, 0, false, false⟩

def tcpSocket0 : TcpSocket := ⟨.established, [], []⟩

/-- C3 (fails on the code): sending the over-length frame does not report a
length error on either transport.  The UDP send_frame unwraps the failed
translation and panics (none); the TCP send_frame returns Ok while silently
dropping the frame, and on a fresh connection it has already written the
30-byte alignment block to the wire before the length check, so wire bytes
are produced; with the alignment block already sent it returns Ok having
written nothing. -/
theorem overlength_send_divergence :
    UdpServer.send_frame udpServer0 udpSocket0 overFrame = none ∧
    TcpServer.send_frame tcpServer0 tcpSocket0 overFrame
      = ({ tcpServer0 with tx_start := true },
         ⟨.established, List.replicate 30 0, []⟩, .ok ()) ∧
    TcpServer.send_frame { tcpServer0 with tx_start := true } tcpSocket0 overFrame
      = ({ tcpServer0 with tx_start := true }, tcpSocket0, .ok ()) := by decide

/-- C2: on a TCP connection whose alignment flag is clear (a freshly
established connection) the first send_frame writes the 30-byte zero block
followed by the 14 encoded frame bytes (44 bytes in all) and sets tx_start;
with tx_start set, send_frame writes exactly the 14 frame bytes; and poll on
a CloseWait socket closes it and clears both alignment flags, so once the
connection is re-established the first conjunct applies afresh and the next
send_frame again begins with the 30-byte zero block. -/
theorem tcp_stream_alignment (s : TcpServer) (d0 rx : List Nat)
    (f : CanFrame) (w : List Bool) (now : Nat)
    (h : Frame.from_frame f = .ok w) (hs : s.tx_start = false) :
    (toBytes w).length = 14 ∧
    TcpServer.send_frame s ⟨.established, d0, rx⟩ f
      = ({ s with tx_start := true },
         ⟨.established, (d0 ++ List.replicate 30 0) ++ toBytes w, rx⟩, .ok ()) ∧
    (∀ s2 : TcpServer, s2.tx_start = true →
      TcpServer.send_frame s2 ⟨.established, d0, rx⟩ f
        = (s2, ⟨.established, d0 ++ toBytes w, rx⟩, .ok ())) ∧
    (∀ (s2 : TcpServer) (txd rxd : List Nat),
      TcpServer.poll s2 ⟨.closeWait, txd, rxd⟩ now
        = ({ s2 with tx_start := false, rx_start := false }, ⟨.closed, txd, rxd⟩)) := by
  refine ⟨?_, ?_, ?_, ?_⟩
  · rw [length_toBytes, length_from_frame h]
  · simp [TcpServer.send_frame, TcpSocket.send_slice, TcpSocket.can_send, hs, h]
  · intro s2 hs2
    simp [TcpServer.send_frame, TcpSocket.send_slice, TcpSocket.can_send, hs2, h]
  · intro s2 txd rxd
    simp [TcpServer.poll, TcpSocket.is_open, TcpSocket.is_listening]

def c2Frame : CanFrame := ⟨.extended 300, 2, [17, 34], false⟩

def c2Wire : List Bool := (Frame.from_frame c2Frame).toOption.getD []

theorem tcp_stream_alignment_witness :
    (toBytes c2Wire).length = 14 ∧
    TcpServer.send_frame tcpServer0 ⟨.established, [], []⟩ c2Frame
      = ({ tcpServer0 with tx_start := true },
         ⟨.established, ([] ++ List.replicate 30 0) ++ toBytes c2Wire, []⟩, .ok ()) := by
  have h := tcp_stream_alignment tcpServer0 [] [] c2Frame c2Wire 0 (by decide) rfl
  exact ⟨h.1, h.2.1⟩

/-- C4: UDP heartbeat cadence.  (i) A poll at a time equal to the stored
last_heartbeat never sends, and a successful send stores now, so repeated
polls with unchanged now never send a second heartbeat; (ii) a poll that
does not send leaves the server state (so the timestamp) unchanged;
(iii) whenever more than one interval has elapsed - after exactly one
interval or after N intervals in a single jump - a poll with a willing
socket performs exactly one send and sets last_heartbeat to now (not one
interval per miss); (iv) a poll whose send fails sends nothing and leaves
the server unchanged, so the send is retried on the next poll. -/
theorem udp_heartbeat_cadence :
    (∀ (s : UdpServer) (sock : UdpSocket) (now : Nat),
      s.last_heartbeat = now → (UdpServer.poll s sock now).2.2 = false) ∧
    (∀ (s : UdpServer) (sock : UdpSocket) (now : Nat),
      (UdpServer.poll s sock now).2.2 = false → (UdpServer.poll s sock now).1 = s) ∧
    (∀ (s : UdpServer) (sock : UdpSocket) (now : Nat),
      sock.sendOk = true → now - s.last_heartbeat > HEARTBEAT_INTERVAL →
      (UdpServer.poll s sock now).2.2 = true ∧
      (UdpServer.poll s sock now).1.last_heartbeat = now ∧
      (UdpServer.poll s sock now).2.1.sent = sock.sent ++
        [Packet.as_bytes (Packet.new_heartbeat s.mac_addr s.bus_number s.data_rate)]) ∧
    (∀ (s : UdpServer) (sock : UdpSocket) (now : Nat),
      sock.sendOk = false →
      (UdpServer.poll s sock now).2.2 = false ∧
      (UdpServer.poll s sock now).1 = s ∧
      (UdpServer.poll s sock now).2.1.sent = sock.sent) := by
  refine ⟨?_, ?_, ?_, ?_⟩
  · intro s sock now h
    simp [UdpServer.poll, UdpServer.write_heartbeat, h, HEARTBEAT_INTERVAL]
  · intro s sock now
    obtain ⟨op, sok, snt⟩ := sock
    by_cases hc : now - s.last_heartbeat > HEARTBEAT_INTERVAL <;>
      cases op <;> cases sok <;>
      simp [UdpServer.poll, UdpServer.write_heartbeat, hc]
  · intro s sock now hok hc
    obtain ⟨op, sok, snt⟩ := sock
    simp only [UdpSocket.sendOk] at hok
    subst hok
    cases op <;> simp [UdpServer.poll, UdpServer.write_heartbeat, hc]
  · intro s sock now hok
    obtain ⟨op, sok, snt⟩ := sock
    simp only [UdpSocket.sendOk] at hok
    subst hok
    by_cases hc : now - s.last_heartbeat > HEARTBEAT_INTERVAL <;>
      cases op <;> simp [UdpServer.poll, UdpServer.write_heartbeat, hc]

theorem udp_heartbeat_cadence_witness :
    (UdpServer.poll udpServer0 udpSocket0 5000000).2.2 = true ∧
    (UdpServer.poll udpServer0 udpSocket0 5000000).1.last_heartbeat = 5000000 := by
  have h := udp_heartbeat_cadence.2.2.1 udpServer0 udpSocket0 5000000 rfl (by decide)
  exact ⟨h.1, h.2.1⟩

/-- C9: UDP send_frame leaves the server state - the heartbeat timestamp and
the held configuration (MAC address, bus number, data rate) - exactly as it
was whenever it returns, and send_heartbeat also returns self unchanged, so
neither resets the heartbeat interval. -/
theorem udp_send_frame_keeps_timer :
    (∀ (s : UdpServer) (sock : UdpSocket) (f : CanFrame)
       (out : UdpServer × UdpSocket × Except Unit Unit),
      UdpServer.send_frame s sock f = some out →
      out.1.last_heartbeat = s.last_heartbeat ∧ out.1.mac_addr = s.mac_addr ∧
      out.1.bus_number = s.bus_number ∧ out.1.data_rate = s.data_rate) ∧
    (∀ (s : UdpServer) (sock : UdpSocket),
      (UdpServer.send_heartbeat s sock).1 = s) := by
  constructor
  · intro s sock f out h
    unfold UdpServer.send_frame at h
    cases hp : udp_send_packet s.bus_number f <;> rw [hp] at h <;> dsimp only at h
    · cases h
    · by_cases hok : sock.sendOk = true
      · rw [if_pos hok] at h
        cases h
        exact ⟨rfl, rfl, rfl, rfl⟩
      · rw [if_neg hok] at h
        cases h
        exact ⟨rfl, rfl, rfl, rfl⟩
  · intro s sock
    rfl

def c9out : UdpServer × UdpSocket × Except Unit Unit :=
  (UdpServer.send_frame udpServer0 udpSocket0 rtFrame).getD
    (udpServer0, udpSocket0, .ok ())

set_option maxRecDepth 10000 in
set_option maxHeartbeats 1000000 in
theorem udp_send_frame_keeps_timer_witness :
    c9out.1.last_heartbeat = udpServer0.last_heartbeat ∧
    (UdpServer.send_heartbeat udpServer0 udpSocket0).1 = udpServer0 := by
  have h := udp_send_frame_keeps_timer
  exact ⟨(h.1 udpServer0 udpSocket0 rtFrame c9out (by decide)).1,
    h.2 udpServer0 udpSocket0⟩

/-- C6: a receive whose byte count differs from the exact unit size yields
no frame and never a partially decoded value: a UDP datagram read of any
length other than the 30-byte Packet size is discarded (none, not an
error), and a TCP read finding fewer than 14 stream bytes available (after
the one-time alignment discard) yields no frame (none, not an error). -/
theorem recv_wrong_size_no_frame :
    (∀ received : List Nat, received.length ≠ 30 → udp_recv_frame received = none) ∧
    (∀ (s : TcpServer) (sock : TcpSocket), s.rx_start = true →
      sock.rxData.length < 14 → (TcpServer.recv_frame s sock).2.2 = none) := by
  constructor
  · intro received h
    unfold udp_recv_frame
    rw [if_pos h]
  · intro s sock hrx hlen
    by_cases hc : sock.can_recv = true
    · have hk : min 14 sock.rxData.length ≠ 14 := by omega
      simp [TcpServer.recv_frame, TcpSocket.recv_slice, hrx, hc, hk]
    · simp only [Bool.not_eq_true] at hc
      simp [TcpServer.recv_frame, hc]

theorem recv_wrong_size_no_frame_witness :
    udp_recv_frame (List.replicate 29 0) = none ∧
    (TcpServer.recv_frame { tcpServer0 with rx_start := true }
       ⟨.established, [], [1, 2, 3]⟩).2.2 = none := by
  exact ⟨recv_wrong_size_no_frame.1 (List.replicate 29 0) (by decide),
    recv_wrong_size_no_frame.2 { tcpServer0 with rx_start := true }
      ⟨.established, [], [1, 2, 3]⟩ rfl (by decide)⟩

/-- C7: every packet the transports build for emission carries the fixed
52-bit protocol version: the heartbeat packet (sent whole over UDP by poll
and send_heartbeat; its frame part is what the TCP heartbeat emits) for
every configuration, and the packet UDP send_frame emits for every
translatable CAN frame. -/
theorem emitted_version_constant :
    (∀ (mac : List Nat) (bus rate : Nat),
      Header.version (Packet.new_heartbeat mac bus rate).header = PROTOCOL_VERSION) ∧
    (∀ (bus : Nat) (f : CanFrame) (p : Packet),
      udp_send_packet bus f = some p →
      Header.version p.header = PROTOCOL_VERSION) := by
  have hv : PROTOCOL_VERSION % 2 ^ 52 = PROTOCOL_VERSION :=
    Nat.mod_eq_of_lt (by norm_num [PROTOCOL_VERSION])
  constructor
  · intro mac bus rate
    have hh : (Packet.new_heartbeat mac bus rate).header
        = Header.set_client_identifier (Header.set_bus_number
            (Header.set_version Header.new PROTOCOL_VERSION) bus) 0 := by
      simp only [Packet.new_heartbeat]
    rw [hh, header_fields_version, hv]
  · intro bus f p hp
    unfold udp_send_packet at hp
    cases hf : Frame.from_frame f <;> rw [hf] at hp
    · cases hp
    · rw [Option.some.injEq] at hp
      subst hp
      dsimp only
      rw [header_fields_version, hv]

def c7p : Packet := (udp_send_packet 13 rtFrame).getD ⟨[], []⟩

set_option maxRecDepth 10000 in
set_option maxHeartbeats 1000000 in
theorem emitted_version_constant_witness :
    Header.version (Packet.new_heartbeat [1, 2, 3, 4, 5, 6] 7 500).header
      = PROTOCOL_VERSION ∧
    Header.version c7p.header = PROTOCOL_VERSION :=
  ⟨emitted_version_constant.1 [1, 2, 3, 4, 5, 6] 7 500,
    emitted_version_constant.2 13 rtFrame c7p (by decide)⟩

end Tritium
